import Mathlib

/-!
Verification of the pynetgene evolutionary-optimization engine.

The definitions below are a shallow embedding of the repository code:

* `src/pynetgene/chromosome.py` — the chromosome data model
  (`BitChromosome`, `IntegerChromosome`, `FloatChromosome`,
  `PermutationChromosome`), embedded over a dynamic value type `PyVal`
  that mirrors the dynamic `isinstance` checks of the Python code.
* `src/netgene/ga.py` — the evolution engine (`GeneticAlgorithm`,
  `GeneticConfiguration`), embedded with random draws, operator results
  and user callbacks passed in explicitly as oracle functions, and the
  in-place mutation of shared individual/chromosome objects modelled by
  an explicit heap of objects addressed by natural-number references.

Python classes that are referenced by `ga.py` but whose module is not part
of the sources (`netgene/core.py`: `Population`, `Individual`, `Offspring`)
are modelled from the specification; each such definition carries a doc
comment saying so.
-/

/-- Dynamic Python values, as far as the chromosome code inspects them:
`None`, `bool`, `int`, `float`, and `BitGene` wrapper objects
(identified by an object id, since default object equality is identity). -/
inductive PyVal where
  | none : PyVal
  | bool (b : Bool) : PyVal
  | int (n : ℤ) : PyVal
  | float (q : ℚ) : PyVal
  | bitGene (objId : ℕ) : PyVal
deriving DecidableEq, Repr

/-- Python exceptions raised by the embedded code, with their messages. -/
inductive PyError where
  | valueError (msg : String) : PyError
  | gaException (msg : String) : PyError
  | indexError : PyError
deriving DecidableEq, Repr

/-- Decidable equality of `Except` results, used to evaluate the embedded
fallible operations on concrete inputs. -/
instance {ε α : Type} [DecidableEq ε] [DecidableEq α] :
    DecidableEq (Except ε α) := fun x y =>
  match x, y with
  | .ok a, .ok b =>
    if h : a = b then isTrue (by rw [h]) else isFalse (by simp [h])
  | .error e, .error f =>
    if h : e = f then isTrue (by rw [h]) else isFalse (by simp [h])
  | .ok _, .error _ => isFalse (by simp)
  | .error _, .ok _ => isFalse (by simp)

/-- Python `isinstance(v, bool)`. -/
def PyVal.isBool : PyVal → Bool
  | .bool _ => true
  | _ => false

/-- Python `isinstance(v, int)`; in Python `bool` is a subclass of `int`,
so booleans pass this check. -/
def PyVal.isInt : PyVal → Bool
  | .int _ => true
  | .bool _ => true
  | _ => false

/-- Python `isinstance(v, (float, int))`. -/
def PyVal.isFloatOrInt : PyVal → Bool
  | .float _ => true
  | .int _ => true
  | .bool _ => true
  | _ => false

/-- Python `isinstance(v, BitGene)`. -/
def PyVal.isBitGene : PyVal → Bool
  | .bitGene _ => true
  | _ => false

/-- Numeric value of a Python number for `==` comparisons:
`True == 1`, `False == 0`, and `int` and `float` compare by value. -/
def PyVal.numVal : PyVal → Option ℚ
  | .bool b => some (if b then 1 else 0)
  | .int n => some (n : ℚ)
  | .float q => some q
  | _ => Option.none

/-- Python `==` on the values the chromosome code stores. Numbers compare
by numeric value; `None` equals `None`; `BitGene` objects compare by
identity (no `__eq__` override). -/
def pyEq (a b : PyVal) : Bool :=
  match a.numVal, b.numVal with
  | some x, some y => x == y
  | _, _ =>
    match a, b with
    | .none, .none => true
    | .bitGene i, .bitGene j => i == j
    | _, _ => false

/-- `Chromosome.contains` (chromosome.py line 28): Python membership test
`gene in self._genes`, which uses `==` on elements. -/
def Chromosome.contains (genes : List PyVal) (gene : PyVal) : Bool :=
  genes.any (fun x => pyEq x gene)

/-- Python `lst.insert(index, v)` for a non-negative index: inserts before
position `index`, appending when `index` is at least the length. -/
def pyInsert (l : List PyVal) (index : ℕ) (v : PyVal) : List PyVal :=
  l.take index ++ v :: l.drop index

/-- Python `lst[index] = v` for a non-negative index: raises `IndexError`
when the index is out of range. -/
def pySetItem (l : List PyVal) (index : ℕ) (v : PyVal) :
    Except PyError (List PyVal) :=
  if index < l.length then .ok (l.set index v) else .error .indexError

/-- `BitChromosome.add_gene` (chromosome.py lines 84-87): rejects a value
that is neither `None` nor a `bool`, then appends. -/
def BitChromosome.add_gene (genes : List PyVal) (gene : PyVal) :
    Except PyError (List PyVal) :=
  if gene ≠ PyVal.none ∧ gene.isBool = false then
    .error (.valueError "allele must be a boolean value (True or False)")
  else .ok (genes ++ [gene])

/-- `BitChromosome.set_gene` (chromosome.py lines 89-92): same type check
as `add_gene`, then item assignment. -/
def BitChromosome.set_gene (genes : List PyVal) (index : ℕ) (gene : PyVal) :
    Except PyError (List PyVal) :=
  if gene ≠ PyVal.none ∧ gene.isBool = false then
    .error (.valueError "allele must be a boolean value (True or False)")
  else pySetItem genes index gene

/-- `BitChromosome.insert_gene` (chromosome.py lines 94-97): unlike the
other two operations it requires a `BitGene` instance, rejecting plain
booleans. -/
def BitChromosome.insert_gene (genes : List PyVal) (index : ℕ) (gene : PyVal) :
    Except PyError (List PyVal) :=
  if gene.isBitGene = false then
    .error (.valueError "Only BitGene can be added to a BitChromosome")
  else .ok (pyInsert genes index gene)

/-- `IntegerChromosome.add_gene` (chromosome.py lines 133-136). -/
def IntegerChromosome.add_gene (genes : List PyVal) (gene : PyVal) :
    Except PyError (List PyVal) :=
  if gene ≠ PyVal.none ∧ gene.isInt = false then
    .error (.valueError "allele must be of type int1")
  else .ok (genes ++ [gene])

/-- `IntegerChromosome.set_gene` (chromosome.py lines 138-141). -/
def IntegerChromosome.set_gene (genes : List PyVal) (index : ℕ) (gene : PyVal) :
    Except PyError (List PyVal) :=
  if gene ≠ PyVal.none ∧ gene.isInt = false then
    .error (.valueError "allele must be of type int2")
  else pySetItem genes index gene

/-- `IntegerChromosome.insert_gene` (chromosome.py lines 143-146). -/
def IntegerChromosome.insert_gene (genes : List PyVal) (index : ℕ) (gene : PyVal) :
    Except PyError (List PyVal) :=
  if gene ≠ PyVal.none ∧ gene.isInt = false then
    .error (.valueError "allele must be of type int3")
  else .ok (pyInsert genes index gene)

/-- `FloatChromosome.add_gene` (chromosome.py lines 183-186). -/
def FloatChromosome.add_gene (genes : List PyVal) (gene : PyVal) :
    Except PyError (List PyVal) :=
  if gene.isFloatOrInt = false then
    .error (.valueError "allele must be a float value")
  else .ok (genes ++ [gene])

/-- `FloatChromosome.set_gene` (chromosome.py lines 188-191). -/
def FloatChromosome.set_gene (genes : List PyVal) (index : ℕ) (gene : PyVal) :
    Except PyError (List PyVal) :=
  if gene.isFloatOrInt = false then
    .error (.valueError "allele must be a float value")
  else pySetItem genes index gene

/-- `FloatChromosome.insert_gene` (chromosome.py lines 193-196). -/
def FloatChromosome.insert_gene (genes : List PyVal) (index : ℕ) (gene : PyVal) :
    Except PyError (List PyVal) :=
  if gene.isFloatOrInt = false then
    .error (.valueError "allele must be a float value")
  else .ok (pyInsert genes index gene)

/-- Error message of the permutation duplicate check. -/
def permDupMsg : String :=
  "Gene with the same allele value was already added to the chromosome. Values must not be repeated in a single chromosome."

/-- `PermutationChromosome.set_gene` (chromosome.py lines 227-234): type
check, duplicate check via `contains`, then item assignment. -/
def PermutationChromosome.set_gene (genes : List PyVal) (index : ℕ) (gene : PyVal) :
    Except PyError (List PyVal) :=
  if gene.isInt = false then
    .error (.valueError "Only int allele values can be added to a PermutationChromosome")
  else if Chromosome.contains genes gene then
    .error (.gaException permDupMsg)
  else pySetItem genes index gene

/-- `PermutationChromosome.add_gene` (chromosome.py lines 236-243). -/
def PermutationChromosome.add_gene (genes : List PyVal) (gene : PyVal) :
    Except PyError (List PyVal) :=
  if gene.isInt = false then
    .error (.valueError "Allele must be an int value")
  else if Chromosome.contains genes gene then
    .error (.gaException permDupMsg)
  else .ok (genes ++ [gene])

/-- `PermutationChromosome.insert_gene` (chromosome.py lines 245-252). -/
def PermutationChromosome.insert_gene (genes : List PyVal) (index : ℕ) (gene : PyVal) :
    Except PyError (List PyVal) :=
  if gene.isInt = false then
    .error (.valueError "Allele must be an int value")
  else if Chromosome.contains genes gene then
    .error (.gaException permDupMsg)
  else .ok (pyInsert genes index gene)

/-- A heap of chromosome objects: each object is its `_genes` list,
addressed by a reference. Mirrors Python object identity, where several
variables may alias one chromosome and `copy()` allocates a new object. -/
structure ChromHeap where
  chroms : List (List PyVal)
deriving DecidableEq, Repr

/-- Gene list held by a chromosome reference. -/
def ChromHeap.genesAt (h : ChromHeap) (r : ℕ) : List PyVal :=
  h.chroms.getD r []

/-- `copy()` of every chromosome variant (chromosome.py lines 102-106,
151-155, 201-205, 254-258): allocate a new chromosome object whose
`_genes` is a shallow copy of the list of primitive alleles; returns the
new heap and the reference of the fresh object. -/
def Chromosome.copy (h : ChromHeap) (r : ℕ) : ChromHeap × ℕ :=
  (⟨h.chroms ++ [h.genesAt r]⟩, h.chroms.length)

/-- One mutating chromosome operation, tagged by variant, as invoked on a
chromosome object: `add_gene`, `set_gene` or `insert_gene` of the Bit,
Integer, Float or Permutation classes. -/
inductive MutOp where
  | bitAdd (g : PyVal)
  | bitSet (i : ℕ) (g : PyVal)
  | bitInsert (i : ℕ) (g : PyVal)
  | intAdd (g : PyVal)
  | intSet (i : ℕ) (g : PyVal)
  | intInsert (i : ℕ) (g : PyVal)
  | floatAdd (g : PyVal)
  | floatSet (i : ℕ) (g : PyVal)
  | floatInsert (i : ℕ) (g : PyVal)
  | permAdd (g : PyVal)
  | permSet (i : ℕ) (g : PyVal)
  | permInsert (i : ℕ) (g : PyVal)
deriving DecidableEq, Repr

/-- Dispatch a `MutOp` to the corresponding embedded chromosome method. -/
def MutOp.apply : MutOp → List PyVal → Except PyError (List PyVal)
  | .bitAdd g, gs => BitChromosome.add_gene gs g
  | .bitSet i g, gs => BitChromosome.set_gene gs i g
  | .bitInsert i g, gs => BitChromosome.insert_gene gs i g
  | .intAdd g, gs => IntegerChromosome.add_gene gs g
  | .intSet i g, gs => IntegerChromosome.set_gene gs i g
  | .intInsert i g, gs => IntegerChromosome.insert_gene gs i g
  | .floatAdd g, gs => FloatChromosome.add_gene gs g
  | .floatSet i g, gs => FloatChromosome.set_gene gs i g
  | .floatInsert i g, gs => FloatChromosome.insert_gene gs i g
  | .permAdd g, gs => PermutationChromosome.add_gene gs g
  | .permSet i g, gs => PermutationChromosome.set_gene gs i g
  | .permInsert i g, gs => PermutationChromosome.insert_gene gs i g

/-- Run a mutating operation on the chromosome object `r` of the heap:
on success the object is updated in place; a raised exception leaves
every object unchanged (the Python methods validate before mutating). -/
def ChromHeap.mutate (h : ChromHeap) (r : ℕ) (op : MutOp) : ChromHeap :=
  match op.apply (h.genesAt r) with
  | .ok gs => ⟨h.chroms.set r gs⟩
  | .error _ => h

/-- Modelled from the spec (netgene/core.py is not among the sources):
an `Individual` owns one chromosome (its gene values, alleles abstracted
as rationals) and carries a fitness score. -/
structure Ind where
  genes : List ℚ
  fitness : ℚ
deriving DecidableEq, Repr

instance : Inhabited Ind := ⟨⟨[], 0⟩⟩

/-- Individual stored at reference `r` of an individual heap. The engine
passes individuals by object reference; the heap makes Python aliasing
explicit. -/
def indAt (heap : List Ind) (r : ℕ) : Ind :=
  heap.getD r default

/-- Fitness of the individual at reference `r`. -/
def fitnessAt (heap : List Ind) (r : ℕ) : ℚ :=
  (indAt heap r).fitness

/-- Engine state: the heap of individual objects, the current population
(Modelled from the spec: a `Population` is an ordered sequence of
individuals — here their references — plus a `generation` counter). -/
structure GaState where
  heap : List Ind
  population : List ℕ
  generation : ℕ
deriving DecidableEq, Repr

/-- Oracle environment for one generation of `GeneticAlgorithm`: the
configuration flags together with the outcomes of every random draw,
operator call and user callback.

* `childrenAt k` is the list of individuals contributed by reproduction
  attempt `k` of `_evolution_task` (ga.py lines 167-180): the children of
  `_crossover` on the selected couple, `[]` when `_parents_supplier`
  returned `None` (a logged `SelectionException`, ga.py lines 197-209) or
  when `_crossover_operator.recombine` raised a logged
  `CrossoverException` leaving the offspring empty (ga.py lines 221-227).
  Children are freshly allocated objects (`recombine` output or copies of
  the parents, ga.py lines 229-235).
* `mutateFn` is the in-place effect of `_mutator_operator.mutate` on an
  individual (`_mutate`, ga.py lines 239-245; identity when a
  `MutatorException` was caught and logged).
* `fitnessFn` is the in-place effect of the user fitness callback on an
  individual (`_calculate_population_fitness`, ga.py lines 247-252). -/
structure EvoEnv where
  skip_crossover : Bool
  skip_mutation : Bool
  elitism : Bool
  elitism_size : ℕ
  childrenAt : ℕ → List Ind
  mutateFn : Ind → Ind
  fitnessFn : Ind → Ind

/-- Python prefix slice `lst[:stop]` with a possibly negative `stop`
(a negative stop counts from the end, clamped at zero). -/
def pySliceStop (l : List ℕ) (stop : ℤ) : List ℕ :=
  if stop < 0 then l.take (((l.length : ℤ) + stop).toNat)
  else l.take stop.toNat

/-- The reproduction loop of `_evolution_task` (ga.py lines 166-180):
at most `fuel` iterations (Python `for _ in range(limit)`), stopping once
the stream holds `limit` individuals; iteration `k` appends the children
of attempt `k` one by one while the stream is below `limit`. -/
def evolutionLoop (childrenAt : ℕ → List Ind) (limit : ℕ) :
    ℕ → ℕ → List Ind → List Ind
  | 0, _, acc => acc
  | fuel + 1, k, acc =>
    if limit ≤ acc.length then acc
    else evolutionLoop childrenAt limit fuel (k + 1)
      (acc ++ (childrenAt k).take (limit - acc.length))

/-- `GeneticAlgorithm._evolution_task` (ga.py lines 162-195) over the
individual heap. With crossover enabled the candidate stream consists of
freshly allocated children; with crossover skipped it is the prefix
`list(population)[:limit]` of the current population — the same objects.
Unless mutation is skipped, every stream member is mutated in place; the
new population is the elite references followed by the stream. Returns
the updated heap and the new population. -/
def evolutionTask (env : EvoEnv) (heap : List Ind) (pop : List ℕ)
    (limit : ℤ) (elite : List ℕ) : List Ind × List ℕ :=
  let hs : List Ind × List ℕ :=
    if env.skip_crossover then (heap, pySliceStop pop limit)
    else
      let streamData := evolutionLoop env.childrenAt limit.toNat limit.toNat 0 []
      (heap ++ streamData, (List.range streamData.length).map (· + heap.length))
  let heap2 :=
    if env.skip_mutation then hs.1
    else hs.2.foldl (fun h r => h.set r (env.mutateFn (indAt h r))) hs.1
  (heap2, elite ++ hs.2)

/-- Modelled from the spec: `Population.sort` sorts the individuals by
fitness descending with a stable sort (spec sections 3 and 4.4 step 7);
embedded as a stable insertion sort of the references. -/
def populationSort (heap : List Ind) (pop : List ℕ) : List ℕ :=
  pop.insertionSort (fun r1 r2 => fitnessAt heap r2 ≤ fitnessAt heap r1)

/-- Modelled from the spec: `Population.get_best_individual` returns the
first individual of the fitness-descending-sorted population. -/
def getBestIndividual (st : GaState) : Ind :=
  indAt st.heap st.population.headI

/-- `GeneticAlgorithm._calculate_population_fitness` (ga.py lines
247-252): the user fitness callback is invoked once per individual of the
current population, updating each in place. -/
def calculatePopulationFitness (fitnessFn : Ind → Ind)
    (heap : List Ind) (pop : List ℕ) : List Ind :=
  pop.foldl (fun h r => h.set r (fitnessFn (indAt h r))) heap

/-- `GeneticAlgorithm._evolve_generation` (ga.py lines 136-160):
compute `limit` (population size minus elitism size when elitism is on),
slice the elite prefix, run `_evolution_task`, evaluate fitness over the
new population, sort it by descending fitness and increment the
generation counter. -/
def evolveGeneration (env : EvoEnv) (st : GaState) : GaState :=
  let limit : ℤ :=
    if env.elitism then (st.population.length : ℤ) - (env.elitism_size : ℤ)
    else (st.population.length : ℤ)
  let elite : List ℕ :=
    if env.elitism then st.population.take env.elitism_size else []
  let tr := evolutionTask env st.heap st.population limit elite
  let heap3 := calculatePopulationFitness env.fitnessFn tr.1 tr.2
  { heap := heap3
    population := populationSort heap3 tr.2
    generation := st.generation + 1 }

/-- The two rate attributes of a `GeneticAlgorithm` instance
(`_mutation_rate` and `_crossover_rate`, ga.py lines 27-29). -/
structure GaProps where
  mutation_rate : ℚ
  crossover_rate : ℚ
deriving DecidableEq, Repr

/-- `GeneticAlgorithm.mutation_rate` setter (ga.py lines 54-59): accepts
the closed interval `[0, 1]`, storing into `_mutation_rate`. -/
def GeneticAlgorithm.set_mutation_rate (g : GaProps) (r : ℚ) :
    Except PyError GaProps :=
  if 0 ≤ r ∧ r ≤ 1 then .ok { g with mutation_rate := r }
  else .error (.valueError "Mutation rate must be between 0.0 and 1.0")

/-- `GeneticAlgorithm.crossover_rate` setter (ga.py lines 65-70): accepts
the closed interval `[0, 1]`, and stores the new value into
`_mutation_rate` (ga.py line 68) — `_crossover_rate` is left untouched. -/
def GeneticAlgorithm.set_crossover_rate (g : GaProps) (r : ℚ) :
    Except PyError GaProps :=
  if 0 ≤ r ∧ r ≤ 1 then .ok { g with mutation_rate := r }
  else .error (.valueError "Crossover rate must be between 0.0 and 1.0")

/-- `GeneticAlgorithm.elitism_size` setter (ga.py lines 88-93): rejects
only a negative size. -/
def GeneticAlgorithm.set_elitism_size (n : ℤ) : Except PyError ℤ :=
  if n < 0 then .error (.gaException "Elitism size cannot be negative")
  else .ok n

/-- Mutation-rate validation of `GeneticConfiguration.__init__`
(ga.py lines 275-279): rejects `r ≤ 0` and `r > 1`, otherwise stores the
value exactly. -/
def GeneticConfiguration.checkMutationRate (r : ℚ) : Except PyError ℚ :=
  if r ≤ 0 then .error (.gaException "Mutation rate value cannot be negative")
  else if 1 < r then
    .error (.gaException "Mutation rate value cannot be higher than 1.0")
  else .ok r

/-- Crossover-rate validation of `GeneticConfiguration.__init__`
(ga.py lines 281-285). -/
def GeneticConfiguration.checkCrossoverRate (r : ℚ) : Except PyError ℚ :=
  if r ≤ 0 then .error (.gaException "Crossover rate value cannot be negative")
  else if 1 < r then
    .error (.gaException "Crossover rate value cannot be higher than 1.0")
  else .ok r

/-- Elitism-size validation of `GeneticConfiguration.__init__`
(ga.py lines 289-291): rejects only a negative size. -/
def GeneticConfiguration.checkElitismSize (n : ℤ) : Except PyError ℤ :=
  if n < 0 then .error (.gaException "Elitism size cannot be negative")
  else .ok n

/-- The built-in stop conditions registered by `GeneticAlgorithm.__init__`
(ga.py lines 46-49): `population.generation == max_generation` and
`target_fitness <= population.get_best_individual().fitness`. -/
def initialStopConditions (maxGeneration : ℕ) (targetFitness : ℚ) :
    List (GaState → Bool) :=
  [fun p => p.generation == maxGeneration,
   fun p => decide (targetFitness ≤ (getBestIndividual p).fitness)]

/-- `GeneticAlgorithm._has_reached_stop_condition` (ga.py lines 254-255):
disjunction over the stop-condition list. -/
def hasReachedStopCondition (conds : List (GaState → Bool)) (st : GaState) :
    Bool :=
  conds.any (fun c => c st)

/-- The `while` loop of `GeneticAlgorithm.evolve` (ga.py lines 129-132)
with explicit fuel: before every generation step the stop conditions are
evaluated on the current population, and the loop halts the moment one is
true. Returns `some (n, final)` when the loop terminated after `n`
completed generation steps within the fuel, `none` otherwise. The step
function (one `_evolve_generation` plus the tracker call) is abstract. -/
def runEvolve (conds : List (GaState → Bool)) (step : GaState → GaState) :
    ℕ → GaState → Option (ℕ × GaState)
  | 0, st => if hasReachedStopCondition conds st then some (0, st) else none
  | fuel + 1, st =>
    if hasReachedStopCondition conds st then some (0, st)
    else
      match runEvolve conds step fuel (step st) with
      | some (n, q) => some (n + 1, q)
      | none => none

/-- `GeneticAlgorithm.evolve` (ga.py lines 125-133) with the executor
lifecycle made explicit. The body of one loop iteration
(`_evolve_generation` plus the generation tracker) may raise, in which
case the exception propagates out of `evolve`; `self._executor.shutdown()`
(line 133) runs only after the `while` loop exits normally — there is no
`try/finally`. Returns `some (outcome, shutdownCalled)` when `evolve`
returns within the fuel, `none` otherwise. -/
def evolveWithShutdown (conds : List (GaState → Bool))
    (stepE : GaState → Except PyError GaState) :
    ℕ → GaState → Option (Except PyError GaState × Bool)
  | 0, st =>
    if hasReachedStopCondition conds st then some (.ok st, true) else none
  | fuel + 1, st =>
    if hasReachedStopCondition conds st then some (.ok st, true)
    else
      match stepE st with
      | .error e => some (.error e, false)
      | .ok st2 => evolveWithShutdown conds stepE fuel st2

/-! ### Helper lemmas -/

theorem indAt_append_left (heap extra : List Ind) (i : ℕ)
    (h : i < heap.length) : indAt (heap ++ extra) i = indAt heap i := by
  simp only [indAt, List.getD, List.get?_eq_getElem?, List.getElem?_append_left h]

theorem indAt_set_ne (h : List Ind) (i r : ℕ) (v : Ind) (hne : i ≠ r) :
    indAt (h.set r v) i = indAt h i := by
  simp only [indAt, List.getD, List.get?_eq_getElem?, List.getElem?_set_ne (Ne.symm hne)]

theorem foldlSet_length (g : List Ind → ℕ → Ind) (refs : List ℕ) :
    ∀ h : List Ind,
      (refs.foldl (fun h r => h.set r (g h r)) h).length = h.length := by
  induction refs with
  | nil => intro h; rfl
  | cons r rs ih => intro h; rw [List.foldl_cons, ih, List.length_set]

theorem foldlSet_indAt_lt (g : List Ind → ℕ → Ind) (refs : List ℕ) :
    ∀ (h : List Ind) (i b : ℕ), (∀ r ∈ refs, b ≤ r) → i < b →
      indAt (refs.foldl (fun h r => h.set r (g h r)) h) i = indAt h i := by
  induction refs with
  | nil => intro h i b _ _; rfl
  | cons r rs ih =>
    intro h i b hge hi
    rw [List.foldl_cons, ih _ i b (fun x hx => hge x (List.mem_cons_of_mem r hx)) hi,
      indAt_set_ne]
    exact Nat.ne_of_lt (Nat.lt_of_lt_of_le hi (hge r (List.mem_cons_self r rs)))

theorem evolutionLoop_length_le (f : ℕ → List Ind) (limit : ℕ) :
    ∀ (fuel k : ℕ) (acc : List Ind), acc.length ≤ limit →
      (evolutionLoop f limit fuel k acc).length ≤ limit := by
  intro fuel
  induction fuel with
  | zero => intro k acc hle; exact hle
  | succ n ih =>
    intro k acc hle
    rw [evolutionLoop]
    split
    · exact hle
    · apply ih
      rw [List.length_append]
      have := List.length_take_le (limit - acc.length) (f k)
      omega

theorem evolutionLoop_length_ge (f : ℕ → List Ind) (limit : ℕ)
    (hf : ∀ j, f j ≠ []) :
    ∀ (fuel k : ℕ) (acc : List Ind),
      min limit (acc.length + fuel) ≤ (evolutionLoop f limit fuel k acc).length := by
  intro fuel
  induction fuel with
  | zero => intro k acc; rw [evolutionLoop]; omega
  | succ n ih =>
    intro k acc
    rw [evolutionLoop]
    split
    · omega
    · rename_i hlt
      have h1 : 1 ≤ (f k).length := by
        have := hf k
        cases hfk : f k with
        | nil => exact absurd hfk this
        | cons a l => simp
      have h2 := ih (k + 1) (acc ++ (f k).take (limit - acc.length))
      rw [List.length_append, List.length_take] at h2
      omega

theorem evolutionLoop_length_eq (f : ℕ → List Ind) (limit : ℕ)
    (hf : ∀ j, f j ≠ []) :
    (evolutionLoop f limit limit 0 []).length = limit := by
  have h1 := evolutionLoop_length_le f limit limit 0 [] (by simp)
  have h2 := evolutionLoop_length_ge f limit hf limit 0 []
  simp only [List.length_nil, Nat.zero_add, Nat.min_self] at h2
  omega

theorem pyEq_comm (a b : PyVal) : pyEq a b = pyEq b a := by
  cases a <;> cases b <;>
    simp [pyEq, PyVal.numVal, BEq.comm]

theorem contains_eq_false_iff (genes : List PyVal) (v : PyVal) :
    Chromosome.contains genes v = false ↔ ∀ x ∈ genes, pyEq x v = false := by
  simp [Chromosome.contains, List.any_eq_false]

theorem pairwise_pyEq_middle (l1 l2 : List PyVal) (v : PyVal)
    (hp : (l1 ++ l2).Pairwise (fun a b => pyEq a b = false))
    (hv : ∀ x ∈ l1 ++ l2, pyEq x v = false) :
    (l1 ++ v :: l2).Pairwise (fun a b => pyEq a b = false) := by
  have hsym : ∀ {a b : PyVal}, pyEq a b = false → pyEq b a = false := by
    intro a b h; rw [pyEq_comm]; exact h
  have hcons : (v :: (l1 ++ l2)).Pairwise (fun a b => pyEq a b = false) := by
    exact List.Pairwise.cons (fun x hx => hsym (hv x hx)) hp
  exact (List.Perm.pairwise_iff (fun h => hsym h) List.perm_middle).mpr hcons

/-! ### Claim theorems -/

/-- C4: the claim states that assigning a valid value to the
`crossover_rate` property makes a subsequent read of `crossover_rate`
return that value while `mutation_rate` stays unchanged. Evaluating the
embedded setter (ga.py lines 65-70) on an instance with
`mutation_rate = 1/20`, `crossover_rate = 4/5` and new value `1/2`: the
assignment is accepted but the stored pair becomes
`mutation_rate = 1/2`, `crossover_rate = 4/5` — the value was written
into `_mutation_rate` (ga.py line 68), so `crossover_rate` still reads
`4/5 ≠ 1/2` and `mutation_rate` changed from `1/20` to `1/2`. -/
theorem C4_crossover_rate_setter_misassigns :
    GeneticAlgorithm.set_crossover_rate ⟨1/20, 4/5⟩ (1/2) =
      Except.ok ⟨1/2, 4/5⟩ ∧ ((4 : ℚ)/5 ≠ 1/2) ∧ ((1 : ℚ)/2 ≠ 1/20) := by
  refine ⟨?_, by norm_num, by norm_num⟩
  unfold GeneticAlgorithm.set_crossover_rate
  rw [if_pos (by norm_num)]

/-- C10: the claim states that `add_gene`, `set_gene` and `insert_gene` of
`BitChromosome` accept exactly the same boolean allele type. Evaluating
the embedded methods: `add_gene` and `set_gene` accept the plain boolean
`True`, while `insert_gene` rejects it with a `ValueError` and instead
accepts a `BitGene` wrapper object, storing it among the plain booleans
(chromosome.py lines 84-97). -/
theorem C10_bit_insert_gene_rejects_bool :
    BitChromosome.add_gene [] (PyVal.bool true) = .ok [PyVal.bool true] ∧
    BitChromosome.set_gene [PyVal.bool false] 0 (PyVal.bool true) =
      .ok [PyVal.bool true] ∧
    BitChromosome.insert_gene [] 0 (PyVal.bool true) =
      .error (.valueError "Only BitGene can be added to a BitChromosome") ∧
    BitChromosome.insert_gene [PyVal.bool false] 0 (PyVal.bitGene 0) =
      .ok [PyVal.bitGene 0, PyVal.bool false] := by
  decide

/-- C7 counterexample: the claim states that setting `mutation_rate` to a
value outside `(0, 1]` — including `0` — through the `GeneticAlgorithm`
property setter fails with a configuration error. The embedded setter
(ga.py lines 54-59) validates the closed interval `[0, 1]`, so the
assignment of `0` is accepted and stored. -/
theorem C7_counterexample_setter_accepts_zero :
    GeneticAlgorithm.set_mutation_rate ⟨1, 1⟩ 0 = Except.ok ⟨0, 1⟩ := by
  decide

/-- C7 amended: at `GeneticConfiguration` construction both rates are
validated against `(0, 1]` and stored exactly when valid, with a
`GaException` otherwise; the `GeneticAlgorithm` property setters instead
validate the closed interval `[0, 1]` — in particular `0` is accepted
there — raising `ValueError` outside it and storing the value exactly,
never clamped (the `crossover_rate` setter storing into the
mutation-rate attribute, ga.py line 68). -/
theorem C7_rate_validation :
    (∀ r : ℚ, GeneticConfiguration.checkMutationRate r = .ok r ↔
      0 < r ∧ r ≤ 1) ∧
    (∀ r : ℚ, GeneticConfiguration.checkCrossoverRate r = .ok r ↔
      0 < r ∧ r ≤ 1) ∧
    (∀ r : ℚ, ¬(0 < r ∧ r ≤ 1) →
      (∃ m, GeneticConfiguration.checkMutationRate r =
        .error (.gaException m)) ∧
      (∃ m, GeneticConfiguration.checkCrossoverRate r =
        .error (.gaException m))) ∧
    (∀ (g : GaProps) (r : ℚ),
      GeneticAlgorithm.set_mutation_rate g r =
        .ok { g with mutation_rate := r } ↔ 0 ≤ r ∧ r ≤ 1) ∧
    (∀ (g : GaProps) (r : ℚ),
      GeneticAlgorithm.set_crossover_rate g r =
        .ok { g with mutation_rate := r } ↔ 0 ≤ r ∧ r ≤ 1) ∧
    (∀ (g : GaProps) (r : ℚ), ¬(0 ≤ r ∧ r ≤ 1) →
      GeneticAlgorithm.set_mutation_rate g r =
        .error (.valueError "Mutation rate must be between 0.0 and 1.0") ∧
      GeneticAlgorithm.set_crossover_rate g r =
        .error (.valueError "Crossover rate must be between 0.0 and 1.0")) := by
  refine ⟨?_, ?_, ?_, ?_, ?_, ?_⟩
  · intro r
    unfold GeneticConfiguration.checkMutationRate
    split_ifs with h1 h2
    · exact ⟨fun h => by simp at h, fun h => absurd h1 (by linarith [h.1])⟩
    · exact ⟨fun h => by simp at h, fun h => absurd h2 (by linarith [h.2])⟩
    · exact ⟨fun _ => ⟨by linarith, by linarith⟩, fun _ => rfl⟩
  · intro r
    unfold GeneticConfiguration.checkCrossoverRate
    split_ifs with h1 h2
    · exact ⟨fun h => by simp at h, fun h => absurd h1 (by linarith [h.1])⟩
    · exact ⟨fun h => by simp at h, fun h => absurd h2 (by linarith [h.2])⟩
    · exact ⟨fun _ => ⟨by linarith, by linarith⟩, fun _ => rfl⟩
  · intro r hr
    unfold GeneticConfiguration.checkMutationRate
      GeneticConfiguration.checkCrossoverRate
    split_ifs with h1 h2
    · exact ⟨⟨_, rfl⟩, ⟨_, rfl⟩⟩
    · exact ⟨⟨_, rfl⟩, ⟨_, rfl⟩⟩
    · exact absurd ⟨by linarith, by linarith⟩ hr
  · intro g r
    unfold GeneticAlgorithm.set_mutation_rate
    split_ifs with h1
    · simp [h1]
    · exact ⟨fun h => by simp at h, fun h => absurd h h1⟩
  · intro g r
    unfold GeneticAlgorithm.set_crossover_rate
    split_ifs with h1
    · simp [h1]
    · exact ⟨fun h => by simp at h, fun h => absurd h h1⟩
  · intro g r hr
    unfold GeneticAlgorithm.set_mutation_rate GeneticAlgorithm.set_crossover_rate
    rw [if_neg hr, if_neg hr]
    exact ⟨rfl, rfl⟩

/-- C7 witness: the amended validation evaluated at concrete rates. -/
theorem C7_rate_validation_witness :
    GeneticConfiguration.checkMutationRate 1 = .ok 1 ∧
    GeneticAlgorithm.set_mutation_rate ⟨1, 1⟩ 2 =
      .error (.valueError "Mutation rate must be between 0.0 and 1.0") :=
  ⟨(C7_rate_validation.1 1).mpr (by norm_num),
   (C7_rate_validation.2.2.2.2.2 ⟨1, 1⟩ 2 (by norm_num)).1⟩

/-- C6 counterexample: the claim states that an elitism size exceeding the
population size fails fast and that no generation step ever runs with
`elitism_size` greater than the population size. Both the
`GeneticAlgorithm.elitism_size` setter and the `GeneticConfiguration`
validation accept `5` (only negativity is checked, ga.py lines 88-93 and
289-291), and a generation step on a population of size `2` with
`elitism_size = 5` runs to completion without any error, returning the
whole previous population as elite. -/
theorem C6_counterexample_oversized_elitism_runs :
    GeneticAlgorithm.set_elitism_size 5 = .ok 5 ∧
    GeneticConfiguration.checkElitismSize 5 = .ok 5 ∧
    evolveGeneration
      { skip_crossover := false, skip_mutation := true, elitism := true,
        elitism_size := 5, childrenAt := fun _ => [], mutateFn := id,
        fitnessFn := id }
      { heap := [⟨[], 1⟩, ⟨[], 2⟩], population := [0, 1], generation := 0 } =
      { heap := [⟨[], 1⟩, ⟨[], 2⟩], population := [1, 0], generation := 1 } := by
  refine ⟨by decide, by decide, ?_⟩
  decide

/-- C6 amended: only a negative elitism size is rejected, by the setter
and by the configuration alike; an elitism size at or above the current
population size is accepted, and the generation step (with crossover
enabled) still runs, its elite slice capped at the whole population and
its reproduction limit non-positive, so the new population has the same
size as the previous one. -/
theorem C6_elitism_size_validation :
    (∀ n : ℤ, GeneticAlgorithm.set_elitism_size n = .ok n ↔ 0 ≤ n) ∧
    (∀ n : ℤ, GeneticConfiguration.checkElitismSize n = .ok n ↔ 0 ≤ n) ∧
    (∀ (env : EvoEnv) (st : GaState), env.elitism = true →
      env.skip_crossover = false →
      st.population.length ≤ env.elitism_size →
      (evolveGeneration env st).population.length = st.population.length) := by
  refine ⟨?_, ?_, ?_⟩
  · intro n
    unfold GeneticAlgorithm.set_elitism_size
    split_ifs with h1
    · exact ⟨fun h => by simp at h, fun h => absurd h1 (by omega)⟩
    · exact ⟨fun _ => by omega, fun _ => rfl⟩
  · intro n
    unfold GeneticConfiguration.checkElitismSize
    split_ifs with h1
    · exact ⟨fun h => by simp at h, fun h => absurd h1 (by omega)⟩
    · exact ⟨fun _ => by omega, fun _ => rfl⟩
  · intro env st helit hskip hle
    unfold evolveGeneration evolutionTask
    rw [helit, hskip]
    simp only [if_true, if_false, Bool.false_eq_true]
    have hlim : ((st.population.length : ℤ) - (env.elitism_size : ℤ)).toNat = 0 := by
      rw [Int.toNat_of_nonpos]; omega
    rw [hlim]
    simp only [evolutionLoop, List.length_nil, List.range_zero, List.map_nil,
      List.append_nil]
    rw [List.take_of_length_le hle]
    unfold populationSort
    rw [List.length_insertionSort]

/-- C5 counterexample: the claim states the worker pool is shut down
whenever `evolve` returns, including by propagated error. In the embedded
`evolve` (ga.py lines 125-133) `self._executor.shutdown()` runs only
after the `while` loop exits normally; a generation step that raises
(here: the tracker) propagates the exception out of `evolve` with the
shutdown not executed. -/
theorem C5_counterexample_error_skips_shutdown :
    evolveWithShutdown (initialStopConditions 1 100)
      (fun _ => .error (.gaException "tracker failed")) 1
      { heap := [⟨[], 0⟩], population := [0], generation := 0 } =
      some (.error (.gaException "tracker failed"), false) := by
  decide

/-- C5 amended: when `evolve` returns normally (a stop condition halted
the loop) the executor has been shut down; when `evolve` ends with a
propagated error from the generation step or tracker, the shutdown has
NOT been executed. -/
theorem C5_shutdown_iff_normal_return :
    (∀ (conds : List (GaState → Bool))
      (stepE : GaState → Except PyError GaState) (fuel : ℕ)
      (st q : GaState) (b : Bool),
      evolveWithShutdown conds stepE fuel st = some (.ok q, b) → b = true) ∧
    (∀ (conds : List (GaState → Bool))
      (stepE : GaState → Except PyError GaState) (fuel : ℕ)
      (st : GaState) (e : PyError) (b : Bool),
      evolveWithShutdown conds stepE fuel st = some (.error e, b) →
        b = false) := by
  constructor
  · intro conds stepE fuel
    induction fuel with
    | zero =>
      intro st q b h
      rw [evolveWithShutdown] at h
      split_ifs at h with hc
      · simp at h
        exact h.2
    | succ n ih =>
      intro st q b h
      rw [evolveWithShutdown] at h
      split_ifs at h with hc
      · simp at h
        exact h.2
      · cases hstep : stepE st with
        | error e => rw [hstep] at h; simp at h
        | ok st2 => rw [hstep] at h; exact ih st2 q b h
  · intro conds stepE fuel
    induction fuel with
    | zero =>
      intro st e b h
      rw [evolveWithShutdown] at h
      split_ifs at h with hc
      · simp at h
    | succ n ih =>
      intro st e b h
      rw [evolveWithShutdown] at h
      split_ifs at h with hc
      · simp at h
      · cases hstep : stepE st with
        | error e2 =>
          rw [hstep] at h
          simp at h
          exact h.2
        | ok st2 => rw [hstep] at h; exact ih st2 e b h

/-- C5 witness: the amended shutdown behavior evaluated on concrete runs:
a run halted by a stop condition has the shutdown flag `true`, a run that
propagates an error has it `false`. -/
theorem C5_shutdown_iff_normal_return_witness :
    (true : Bool) = true ∧ (false : Bool) = false :=
  ⟨C5_shutdown_iff_normal_return.1 [fun _ => true] (fun s => .ok s) 0
      ⟨[], [], 0⟩ ⟨[], [], 0⟩ true (by decide),
   C5_shutdown_iff_normal_return.2 [fun _ => false] (fun _ => .error .indexError)
      1 ⟨[], [], 0⟩ .indexError false (by decide)⟩

/-- Appending a predicate preserves truth of the disjunction. -/
theorem hasReachedStopCondition_append_of (conds : List (GaState → Bool))
    (c : GaState → Bool) (st : GaState)
    (h : hasReachedStopCondition conds st = true) :
    hasReachedStopCondition (conds ++ [c]) st = true := by
  simp only [hasReachedStopCondition, List.any_append, Bool.or_eq_true]
  exact Or.inl h

/-- C3: the stop-condition list is evaluated disjunctively against the
current population before every generation step and the loop halts the
moment one predicate is true (zero further steps); the two built-in
predicates registered at construction are exactly
`generation == max_generation` and
`target_fitness <= best individual fitness`; and appending a custom
predicate can only make the loop halt after at most as many generation
steps, never more. -/
theorem C3_stop_condition_evaluation :
    (∀ (mg : ℕ) (tf : ℚ) (st : GaState),
      hasReachedStopCondition (initialStopConditions mg tf) st =
        ((st.generation == mg) ||
          decide (tf ≤ (getBestIndividual st).fitness))) ∧
    (∀ (conds : List (GaState → Bool)) (step : GaState → GaState)
      (fuel : ℕ) (st : GaState),
      hasReachedStopCondition conds st = true →
      runEvolve conds step fuel st = some (0, st)) ∧
    (∀ (conds : List (GaState → Bool)) (c : GaState → Bool)
      (step : GaState → GaState) (fuel n : ℕ) (st q : GaState),
      runEvolve conds step fuel st = some (n, q) →
      ∃ m q2, runEvolve (conds ++ [c]) step fuel st = some (m, q2) ∧ m ≤ n) := by
  refine ⟨?_, ?_, ?_⟩
  · intro mg tf st
    simp [hasReachedStopCondition, initialStopConditions]
  · intro conds step fuel st h
    cases fuel with
    | zero => rw [runEvolve, if_pos h]
    | succ n => rw [runEvolve, if_pos h]
  · intro conds c step fuel
    induction fuel with
    | zero =>
      intro n st q h
      rw [runEvolve] at h
      split_ifs at h with hc
      · exact ⟨0, st, by rw [runEvolve,
          if_pos (hasReachedStopCondition_append_of conds c st hc)],
          Nat.zero_le n⟩
    | succ f ih =>
      intro n st q h
      rw [runEvolve] at h
      split_ifs at h with hc
      · simp at h
        refine ⟨0, st, by rw [runEvolve,
          if_pos (hasReachedStopCondition_append_of conds c st hc)], ?_⟩
        omega
      · cases hrec : runEvolve conds step f (step st) with
        | none => rw [hrec] at h; simp at h
        | some p =>
          obtain ⟨k, q1⟩ := p
          rw [hrec] at h
          simp at h
          obtain ⟨m, q2, hrun, hm⟩ := ih k (step st) q1 hrec
          by_cases hcext : hasReachedStopCondition (conds ++ [c]) st = true
          · exact ⟨0, st, by rw [runEvolve, if_pos hcext], by omega⟩
          · refine ⟨m + 1, q2, ?_, by omega⟩
            rw [runEvolve, if_neg hcext, hrun]

/-- C3 witness: the stop-condition behavior evaluated on concrete runs:
a loop whose condition is immediately true takes zero steps, and a
two-step run keeps a halting index of at most two after a custom
predicate is appended. -/
theorem C3_stop_condition_evaluation_witness :
    runEvolve [fun _ => true] id 0 ⟨[], [], 0⟩ = some (0, ⟨[], [], 0⟩) ∧
    ∃ m q2, runEvolve ([fun st => st.generation == 2] ++ [fun _ => false])
      (fun st => ⟨st.heap, st.population, st.generation + 1⟩) 2
      ⟨[], [], 0⟩ = some (m, q2) ∧ m ≤ 2 :=
  ⟨C3_stop_condition_evaluation.2.1 [fun _ => true] id 0 ⟨[], [], 0⟩ (by decide),
   C3_stop_condition_evaluation.2.2 [fun st => st.generation == 2] (fun _ => false)
     (fun st => ⟨st.heap, st.population, st.generation + 1⟩) 2 2
     ⟨[], [], 0⟩ ⟨[], [], 2⟩ (by decide)⟩

/-- The new population assembled by `_evolution_task`: the elite prefix
followed by the candidate stream (population prefix when crossover is
skipped, freshly allocated children otherwise). -/
theorem evolutionTask_population (env : EvoEnv) (heap : List Ind)
    (pop : List ℕ) (limit : ℤ) (elite : List ℕ) :
    (evolutionTask env heap pop limit elite).2 =
      elite ++ (if env.skip_crossover then pySliceStop pop limit
        else (List.range
          (evolutionLoop env.childrenAt limit.toNat limit.toNat 0 []).length).map
          (· + heap.length)) := by
  unfold evolutionTask
  by_cases h : env.skip_crossover <;> simp [h]

/-- The population of the state produced by `_evolve_generation` is the
sorted version of the population assembled by `_evolution_task`. -/
theorem evolveGeneration_population (env : EvoEnv) (st : GaState) :
    (evolveGeneration env st).population =
      populationSort (evolveGeneration env st).heap
        (evolutionTask env st.heap st.population
          (if env.elitism then
            (st.population.length : ℤ) - (env.elitism_size : ℤ)
          else (st.population.length : ℤ))
          (if env.elitism then st.population.take env.elitism_size
            else [])).2 := by
  rfl

/-- C1 counterexample: the claim states that a completed generation step
preserves the population size, and that the engine raises a descriptive
error when the reproduction phase cannot assemble the required number of
individuals. On a population of size 3 with `elitism_size = 1` where
every reproduction attempt yields no offspring (every parent selection
fails, ga.py lines 197-209), the generation step completes without any
error and the new current population has size 1 — only the elite. -/
theorem C1_counterexample_shrinks_silently :
    evolveGeneration
      { skip_crossover := false, skip_mutation := false, elitism := true,
        elitism_size := 1, childrenAt := fun _ => [], mutateFn := id,
        fitnessFn := id }
      { heap := [⟨[], 3⟩, ⟨[], 2⟩, ⟨[], 1⟩], population := [0, 1, 2],
        generation := 0 } =
      { heap := [⟨[], 3⟩, ⟨[], 2⟩, ⟨[], 1⟩], population := [0],
        generation := 1 } := by
  decide

/-- C1 amended: each completed generation step produces a new current
population whose size equals the previous size, provided the configured
elitism size does not exceed the population size and — when crossover is
enabled — every reproduction attempt contributes at least one individual
(parent selection succeeded and crossover produced offspring). When
attempts can come back empty the step still completes, silently
producing a smaller population: no error is raised (there is no retry
bound in `_evolution_task`, ga.py lines 162-195). -/
theorem C1_population_size_preserved (env : EvoEnv) (st : GaState)
    (helit : env.elitism = true → env.elitism_size ≤ st.population.length)
    (hchild : env.skip_crossover = false → ∀ k, env.childrenAt k ≠ []) :
    (evolveGeneration env st).population.length = st.population.length := by
  rw [evolveGeneration_population]
  unfold populationSort
  rw [List.length_insertionSort, evolutionTask_population, List.length_append]
  by_cases he : env.elitism
  · have hsize := helit he
    rw [if_pos he, if_pos he]
    by_cases hsc : env.skip_crossover
    · rw [if_pos hsc]
      unfold pySliceStop
      rw [if_neg (by omega)]
      simp only [List.length_take]
      omega
    · rw [if_neg hsc, List.length_map, List.length_range,
        evolutionLoop_length_eq env.childrenAt _ (hchild (by simp [hsc]))]
      simp only [List.length_take]
      omega
  · rw [if_neg he, if_neg he]
    simp only [List.length_nil, Nat.zero_add]
    by_cases hsc : env.skip_crossover
    · rw [if_pos hsc]
      unfold pySliceStop
      rw [if_neg (by omega)]
      simp
    · rw [if_neg hsc, List.length_map, List.length_range,
        evolutionLoop_length_eq env.childrenAt _ (hchild (by simp [hsc]))]
      simp

/-- C1 witness: the size-preservation theorem evaluated on a concrete
two-individual population with elitism size 1 and one child per
reproduction attempt. -/
theorem C1_population_size_preserved_witness :
    (evolveGeneration
      { skip_crossover := false, skip_mutation := false, elitism := true,
        elitism_size := 1, childrenAt := fun _ => [⟨[], 0⟩], mutateFn := id,
        fitnessFn := id }
      { heap := [⟨[], 2⟩, ⟨[], 1⟩], population := [0, 1],
        generation := 0 }).population.length = 2 := by
  exact C1_population_size_preserved _ _ (fun _ => by decide)
    (fun _ k => by simp)

/-- C2 counterexample: the claim states the top `elitism_size` individuals
of the sorted current population are never passed to the mutator and
appear unchanged in the next population. With crossover skipped the
candidate stream is `list(population)[:limit]` (ga.py line 183) — the
same objects as the population — so the elite individual (reference 0,
genes `[5]`, fitness `10`, top of the fitness-descending population) is
itself mutated in place (here to genes `[7]`, fitness `0`) and shows up
changed in the next generation's population. -/
theorem C2_counterexample_skip_crossover_mutates_elite :
    evolveGeneration
      { skip_crossover := true, skip_mutation := false, elitism := true,
        elitism_size := 1, childrenAt := fun _ => [],
        mutateFn := fun _ => ⟨[7], 0⟩, fitnessFn := id }
      { heap := [⟨[5], 10⟩, ⟨[6], 5⟩], population := [0, 1],
        generation := 0 } =
      { heap := [⟨[7], 0⟩, ⟨[6], 5⟩], population := [0, 0],
        generation := 1 } ∧
    ([5] : List ℚ) ≠ [7] := by
  refine ⟨by decide, by decide⟩

/-- C2 amended: provided crossover is not skipped (the candidate stream
then consists of freshly allocated offspring only), the top
`elitism_size` references of the current fitness-descending-sorted
population form the prefix of the population assembled by
`_evolution_task`, their individuals are untouched by the mutator (their
heap entries are unchanged), and none of them occurs among the non-elite
slots of the new population. When crossover is skipped the stream is
drawn from the current population itself and may mutate the elites in
place. -/
theorem C2_elitism_preserved (env : EvoEnv) (heap : List Ind) (pop : List ℕ)
    (hsc : env.skip_crossover = false)
    (hsize : env.elitism_size ≤ pop.length)
    (hvalid : ∀ r ∈ pop, r < heap.length)
    (hsorted : pop.Pairwise
      (fun r1 r2 => fitnessAt heap r2 ≤ fitnessAt heap r1)) :
    ((evolutionTask env heap pop
        ((pop.length : ℤ) - (env.elitism_size : ℤ))
        (pop.take env.elitism_size)).2).take env.elitism_size =
      pop.take env.elitism_size ∧
    (∀ r ∈ pop.take env.elitism_size,
      indAt (evolutionTask env heap pop
        ((pop.length : ℤ) - (env.elitism_size : ℤ))
        (pop.take env.elitism_size)).1 r = indAt heap r) ∧
    (∀ r ∈ pop.take env.elitism_size,
      ∀ s ∈ ((evolutionTask env heap pop
        ((pop.length : ℤ) - (env.elitism_size : ℤ))
        (pop.take env.elitism_size)).2).drop env.elitism_size, r ≠ s) := by
  have htakelen : (pop.take env.elitism_size).length = env.elitism_size := by
    rw [List.length_take]
    omega
  have hmemlt : ∀ r ∈ pop.take env.elitism_size, r < heap.length :=
    fun r hr => hvalid r (List.mem_of_mem_take hr)
  have hpop2 := evolutionTask_population env heap pop
    ((pop.length : ℤ) - (env.elitism_size : ℤ)) (pop.take env.elitism_size)
  rw [hsc] at hpop2
  simp only [Bool.false_eq_true, if_false] at hpop2
  refine ⟨?_, ?_, ?_⟩
  · rw [hpop2]
    nth_rewrite 1 [show env.elitism_size = (pop.take env.elitism_size).length
      from htakelen.symm]
    exact List.take_left _ _
  · intro r hr
    unfold evolutionTask
    rw [hsc]
    simp only [Bool.false_eq_true, if_false]
    by_cases hm : env.skip_mutation
    · rw [if_pos hm]
      exact indAt_append_left heap _ r (hmemlt r hr)
    · rw [if_neg hm]
      rw [foldlSet_indAt_lt _ _ _ r heap.length ?_ (hmemlt r hr)]
      · exact indAt_append_left heap _ r (hmemlt r hr)
      · intro s hs
        simp only [List.mem_map, List.mem_range] at hs
        obtain ⟨x, _, hx⟩ := hs
        omega
  · intro r hr s hs
    rw [hpop2] at hs
    nth_rewrite 1 [show env.elitism_size = (pop.take env.elitism_size).length
      from htakelen.symm] at hs
    rw [List.drop_left] at hs
    simp only [List.mem_map, List.mem_range] at hs
    obtain ⟨x, _, hx⟩ := hs
    have := hmemlt r hr
    omega

/-- C2 witness: the amended elitism preservation evaluated on a concrete
sorted two-individual population with one fresh child per attempt. -/
theorem C2_elitism_preserved_witness :
    ((evolutionTask
      { skip_crossover := false, skip_mutation := false, elitism := true,
        elitism_size := 1, childrenAt := fun _ => [⟨[9], 9⟩],
        mutateFn := fun _ => ⟨[4], 4⟩, fitnessFn := id }
      [⟨[5], 10⟩, ⟨[6], 5⟩] [0, 1]
      ((([0, 1] : List ℕ).length : ℤ) - ((1 : ℕ) : ℤ))
      (([0, 1] : List ℕ).take 1)).2).take 1 = ([0, 1] : List ℕ).take 1 := by
  exact (C2_elitism_preserved
    { skip_crossover := false, skip_mutation := false, elitism := true,
      elitism_size := 1, childrenAt := fun _ => [⟨[9], 9⟩],
      mutateFn := fun _ => ⟨[4], 4⟩, fitnessFn := id }
    [⟨[5], 10⟩, ⟨[6], 5⟩] [0, 1] rfl (by decide) (by decide) (by decide)).1

/-- Gene list of an object below an appended heap segment. -/
theorem genesAt_append_left (cs l : List (List PyVal)) (r : ℕ)
    (hr : r < cs.length) :
    (ChromHeap.mk (cs ++ l)).genesAt r = (ChromHeap.mk cs).genesAt r := by
  simp only [ChromHeap.genesAt, List.getD, List.get?_eq_getElem?,
    List.getElem?_append_left hr]

/-- Gene list of an object is unchanged by setting a different object. -/
theorem genesAt_set_ne (cs : List (List PyVal)) (i r : ℕ) (v : List PyVal)
    (hne : r ≠ i) :
    (ChromHeap.mk (cs.set i v)).genesAt r = (ChromHeap.mk cs).genesAt r := by
  simp only [ChromHeap.genesAt, List.getD, List.get?_eq_getElem?,
    List.getElem?_set_ne (Ne.symm hne)]

/-- C9: `copy()` of any chromosome variant returns a fresh chromosome
object whose gene-value sequence equals the original's, and running any
mutating operation (`add_gene`, `set_gene` or `insert_gene` of any
variant) on the copy leaves the original chromosome's gene values
unchanged — the copy holds its own allele list. -/
theorem C9_copy_then_mutate_preserves_original (h : ChromHeap) (r : ℕ)
    (op : MutOp) (hr : r < h.chroms.length) :
    (Chromosome.copy h r).1.genesAt (Chromosome.copy h r).2 =
      h.genesAt r ∧
    (ChromHeap.mutate (Chromosome.copy h r).1 (Chromosome.copy h r).2
      op).genesAt r = h.genesAt r := by
  constructor
  · show (ChromHeap.mk (h.chroms ++ [h.genesAt r])).genesAt h.chroms.length =
      h.genesAt r
    simp only [ChromHeap.genesAt, List.getD, List.get?_eq_getElem?,
      List.getElem?_append_right (Nat.le_refl h.chroms.length),
      Nat.sub_self]
    rfl
  · show (ChromHeap.mutate (ChromHeap.mk (h.chroms ++ [h.genesAt r]))
      h.chroms.length op).genesAt r = h.genesAt r
    unfold ChromHeap.mutate
    cases happ : op.apply ((ChromHeap.mk
        (h.chroms ++ [h.genesAt r])).genesAt h.chroms.length) with
    | ok gs =>
      simp only
      rw [genesAt_set_ne _ _ _ _ (Nat.ne_of_lt hr)]
      exact genesAt_append_left h.chroms _ r hr
    | error e =>
      simp only
      exact genesAt_append_left h.chroms _ r hr

/-- C9 witness: copy independence evaluated on a concrete one-chromosome
heap and a permutation `add_gene` on the copy. -/
theorem C9_copy_then_mutate_preserves_original_witness :
    (Chromosome.copy ⟨[[PyVal.int 1]]⟩ 0).1.genesAt
      (Chromosome.copy ⟨[[PyVal.int 1]]⟩ 0).2 =
      ChromHeap.genesAt ⟨[[PyVal.int 1]]⟩ 0 ∧
    (ChromHeap.mutate (Chromosome.copy ⟨[[PyVal.int 1]]⟩ 0).1
      (Chromosome.copy ⟨[[PyVal.int 1]]⟩ 0).2
      (.permAdd (.int 2))).genesAt 0 =
      ChromHeap.genesAt ⟨[[PyVal.int 1]]⟩ 0 :=
  C9_copy_then_mutate_preserves_original ⟨[[PyVal.int 1]]⟩ 0
    (.permAdd (.int 2)) (by decide)

/-- C8: on a `PermutationChromosome` whose alleles are pairwise distinct
(under Python equality), `add_gene`, `set_gene` and `insert_gene` with an
integer allele already contained raise the duplicate-value `GaException`
— leaving the gene sequence unchanged, since the check precedes any
mutation — and with an integer allele not yet present they succeed
(`set_gene` on a valid index) and the resulting alleles are again
pairwise distinct. -/
theorem C8_permutation_distinct (genes : List PyVal) (n : ℤ) (index : ℕ)
    (hdist : genes.Pairwise (fun a b => pyEq a b = false)) :
    (Chromosome.contains genes (.int n) = true →
      PermutationChromosome.add_gene genes (.int n) =
        .error (.gaException permDupMsg) ∧
      PermutationChromosome.insert_gene genes index (.int n) =
        .error (.gaException permDupMsg) ∧
      PermutationChromosome.set_gene genes index (.int n) =
        .error (.gaException permDupMsg)) ∧
    (Chromosome.contains genes (.int n) = false →
      (PermutationChromosome.add_gene genes (.int n) =
        .ok (genes ++ [.int n]) ∧
        (genes ++ [PyVal.int n]).Pairwise (fun a b => pyEq a b = false)) ∧
      (PermutationChromosome.insert_gene genes index (.int n) =
        .ok (pyInsert genes index (.int n)) ∧
        (pyInsert genes index (.int n)).Pairwise
          (fun a b => pyEq a b = false)) ∧
      (index < genes.length →
        PermutationChromosome.set_gene genes index (.int n) =
          .ok (genes.set index (.int n)) ∧
        (genes.set index (.int n)).Pairwise
          (fun a b => pyEq a b = false))) := by
  have hfresh : Chromosome.contains genes (.int n) = false →
      ∀ x ∈ genes, pyEq x (.int n) = false :=
    fun hc => (contains_eq_false_iff genes (.int n)).mp hc
  constructor
  · intro hc
    refine ⟨?_, ?_, ?_⟩
    · unfold PermutationChromosome.add_gene
      rw [if_neg (by simp [PyVal.isInt]), if_pos hc]
    · unfold PermutationChromosome.insert_gene
      rw [if_neg (by simp [PyVal.isInt]), if_pos hc]
    · unfold PermutationChromosome.set_gene
      rw [if_neg (by simp [PyVal.isInt]), if_pos hc]
  · intro hc
    refine ⟨⟨?_, ?_⟩, ⟨?_, ?_⟩, ?_⟩
    · unfold PermutationChromosome.add_gene
      rw [if_neg (by simp [PyVal.isInt]), if_neg (by simp [hc])]
    · have := pairwise_pyEq_middle genes [] (.int n)
        (by simpa using hdist) (by simpa using hfresh hc)
      simpa using this
    · unfold PermutationChromosome.insert_gene
      rw [if_neg (by simp [PyVal.isInt]), if_neg (by simp [hc])]
    · unfold pyInsert
      refine pairwise_pyEq_middle _ _ (.int n) ?_ ?_
      · rw [List.take_append_drop]
        exact hdist
      · rw [List.take_append_drop]
        exact hfresh hc
    · intro hidx
      constructor
      · unfold PermutationChromosome.set_gene pySetItem
        rw [if_neg (by simp [PyVal.isInt]), if_neg (by simp [hc]),
          if_pos hidx]
      · rw [List.set_eq_take_append_cons_drop, if_pos hidx]
        refine pairwise_pyEq_middle _ _ (.int n) ?_ ?_
        · rw [← List.eraseIdx_eq_take_drop_succ]
          exact hdist.sublist (List.eraseIdx_sublist genes index)
        · rw [← List.eraseIdx_eq_take_drop_succ]
          intro x hx
          exact hfresh hc x ((List.eraseIdx_sublist genes index).subset hx)

/-- C8 witness: the permutation distinctness behavior evaluated on the
concrete chromosome `[3, 1]`: adding the duplicate `1` fails, adding the
fresh `2` succeeds and keeps the alleles pairwise distinct. -/
theorem C8_permutation_distinct_witness :
    (PermutationChromosome.add_gene [PyVal.int 3, PyVal.int 1] (.int 1) =
      .error (.gaException permDupMsg)) ∧
    (PermutationChromosome.add_gene [PyVal.int 3, PyVal.int 1] (.int 2) =
      .ok [PyVal.int 3, PyVal.int 1, PyVal.int 2]) :=
  ⟨((C8_permutation_distinct [PyVal.int 3, PyVal.int 1] 1 0
      (by decide)).1 (by decide)).1,
   (((C8_permutation_distinct [PyVal.int 3, PyVal.int 1] 2 0
      (by decide)).2 (by decide)).1).1⟩

/-- C6 witness: the elitism-size validation evaluated at concrete inputs:
`0` is accepted by the setter, and a generation step on a population of
size 1 with elitism size 3 completes, preserving the population length. -/
theorem C6_elitism_size_validation_witness :
    (GeneticAlgorithm.set_elitism_size 0 = .ok 0) ∧
    ((evolveGeneration
      { skip_crossover := false, skip_mutation := false, elitism := true,
        elitism_size := 3, childrenAt := fun _ => [⟨[], 0⟩], mutateFn := id,
        fitnessFn := id }
      { heap := [⟨[], 1⟩], population := [0],
        generation := 0 }).population.length = 1) :=
  ⟨(C6_elitism_size_validation.1 0).mpr (by decide),
   C6_elitism_size_validation.2.2
     { skip_crossover := false, skip_mutation := false, elitism := true,
       elitism_size := 3, childrenAt := fun _ => [⟨[], 0⟩], mutateFn := id,
       fitnessFn := id }
     { heap := [⟨[], 1⟩], population := [0], generation := 0 }
     rfl rfl (by decide)⟩
